import Mathlib

/-!
# Verification of the single-cell analysis pipeline

Shallow embedding of the shared processing modules of the repository
(`shared_utils/sc_processor.py`, `shared_utils/sc_clustering.py`) and of the
dataset loaders (`Datasets/*/sc_loader.py`, `Datasets/GSE41265/sc_metadata.py`).

Modelling conventions:
* A pandas `DataFrame` is a `Frame α`: a list of labelled rows (each row is a
  label together with the list of its cell values, one per column) plus the
  list of column labels.  A frame is well-formed (`Frame.WF`) when every row
  has exactly one value per column.
* Numeric cell values are rationals (`ℚ`).  Floating-point rounding is out of
  scope; the algorithms of interest (threshold filtering, counting, selection,
  alignment) are arithmetic-exact.
* Possibly-missing values (pandas `NaN`, unparsable entries) are `Option`s.
* Calls into external libraries with non-algebraic kernels (scikit-learn's
  PCA transform and clustering fits, the AMI/ARI scorers, `sqrt` inside
  `StandardScaler`, `numpy`'s logarithms) are abstracted as explicit function
  parameters ("oracles"); everything the repository's own code does around
  them is embedded concretely.
-/

namespace SC

/-- Row/column labels (pandas index entries). -/
abbrev Label := String

/-- A pandas DataFrame: labelled rows (label, cell values) and column labels.
`rows` are genes and `cols` are samples for expression matrices. -/
structure Frame (α : Type) where
  rows : List (Label × List α)
  cols : List Label
  deriving DecidableEq

/-- Well-formedness: every row has one value per column. -/
def Frame.WF {α : Type} (f : Frame α) : Prop :=
  ∀ r ∈ f.rows, r.2.length = f.cols.length

instance {α : Type} (f : Frame α) : Decidable f.WF := by
  unfold Frame.WF; infer_instance

/-- pandas `df.empty`: true when any axis has length zero. -/
def Frame.isEmpty {α : Type} (f : Frame α) : Bool :=
  f.rows.isEmpty || f.cols.isEmpty

/-- The empty DataFrame `pd.DataFrame()`. -/
def Frame.empty {α : Type} : Frame α := ⟨[], []⟩

/-- `df.loc[idx]`: row selection by a list of labels, in the order of `idx`;
every row carrying a requested label is returned (pandas semantics on a
possibly duplicated index), and the columns are unchanged. -/
def locRows {α : Type} (df : Frame α) (idx : List Label) : Frame α :=
  ⟨idx.flatMap (fun g => df.rows.filter (fun r => r.1 == g)), df.cols⟩

/-- Membership in a `.loc` row selection. -/
lemma mem_locRows {α : Type} {df : Frame α} {idx : List Label}
    {rr : Label × List α} :
    rr ∈ (locRows df idx).rows ↔ rr ∈ df.rows ∧ rr.1 ∈ idx := by
  show rr ∈ idx.flatMap _ ↔ _
  rw [List.mem_flatMap]
  constructor
  · rintro ⟨g, hg, hmemf⟩
    have h := List.mem_filter.mp hmemf
    exact ⟨h.1, by rw [beq_iff_eq.mp h.2]; exact hg⟩
  · rintro ⟨hrr, hgI⟩
    exact ⟨rr.1, hgI, List.mem_filter.mpr ⟨hrr, beq_self_eq_true rr.1⟩⟩

/-!
## `filter_tpm_matrix` (sc_processor.py, lines 13-65)
-/

/-- `genes_detected = (df > min_tpm).sum(axis=0)` evaluated at column
position `j`: the number of genes whose value in that sample is strictly
greater than `minTpm`. -/
def genesDetected (df : Frame ℚ) (minTpm : ℚ) (j : ℕ) : ℕ :=
  df.rows.countP (fun r => decide (minTpm < r.2.getD j 0))

/-- `samples_mask = genes_detected >= min_genes_per_sample`: the column
positions that survive sample QC. -/
def keptSamplePos (df : Frame ℚ) (minTpm : ℚ) (minGenesPerSample : ℕ) : List ℕ :=
  (List.range df.cols.length).filter
    (fun j => decide (minGenesPerSample ≤ genesDetected df minTpm j))

/-- `df.loc[:, mask]`: keep only the columns at positions `ps` (in order). -/
def selectCols (df : Frame ℚ) (ps : List ℕ) : Frame ℚ :=
  ⟨df.rows.map (fun r => (r.1, ps.map (fun j => r.2.getD j 0))),
   ps.map (fun j => df.cols.getD j "")⟩

/-- `samples_per_gene = (df_filtered_samples > min_tpm).sum(axis=1)` for one
gene row. -/
def samplesPerGene (minTpm : ℚ) (xs : List ℚ) : ℕ :=
  xs.countP (fun x => decide (minTpm < x))

/-- Per-sample total expression of the filtered matrix,
`df_final.sum(axis=0)` at local column position `i`. -/
def colSum (df : Frame ℚ) (i : ℕ) : ℚ :=
  (df.rows.map (fun r => r.2.getD i 0)).sum

/-- `filter_tpm_matrix(df, min_tpm, min_genes_per_sample, min_samples_per_gene)`:
two-stage QC filtering.  Stage 1 keeps the samples in which at least
`min_genes_per_sample` genes exceed `min_tpm`; if none survive an empty pair is
returned.  Stage 2 keeps the genes detected (value `> min_tpm`) in at least
`min_samples_per_gene` of the surviving samples.  Also returns the QC-metrics
frame (`n_genes_detected`, computed on the full input, and `total_tpm` of the
filtered matrix), indexed by the kept samples. -/
def filter_tpm_matrix (df : Frame ℚ) (minTpm : ℚ)
    (minGenesPerSample minSamplesPerGene : ℕ) : Frame ℚ × Frame ℚ :=
  if df.isEmpty then (Frame.empty, Frame.empty) else
  let keptPos := keptSamplePos df minTpm minGenesPerSample
  let dfSamples := selectCols df keptPos
  if dfSamples.isEmpty then (Frame.empty, Frame.empty) else
  let dfFinal : Frame ℚ :=
    ⟨dfSamples.rows.filter
        (fun r => decide (minSamplesPerGene ≤ samplesPerGene minTpm r.2)),
     dfSamples.cols⟩
  let qc : Frame ℚ :=
    ⟨(List.range keptPos.length).map (fun i =>
        (df.cols.getD (keptPos.getD i 0) "",
         [((genesDetected df minTpm (keptPos.getD i 0) : ℚ)), colSum dfFinal i])),
     ["n_genes_detected", "total_tpm"]⟩
  (dfFinal, qc)

/-!
### Spec-side statement of claim C1
-/

/-- Spec-side, from the claim's words: the column positions in which at least
`minGenesPerSample` genes have value strictly greater than `minTpm`. -/
def specKeptSamples (df : Frame ℚ) (minTpm : ℚ) (minGenesPerSample : ℕ) : List ℕ :=
  (List.range df.cols.length).filter
    (fun j => decide (minGenesPerSample ≤
      df.rows.countP (fun r => decide (minTpm < r.2.getD j 0))))

/-- Spec-side statement of claim C1: the filtered matrix keeps exactly the
samples detected in the first stage and exactly the genes whose value exceeds
`minTpm` in at least `minSamplesPerGene` of the *kept* samples, restricted to
the kept samples. -/
def FilterClaim (df : Frame ℚ) (minTpm : ℚ)
    (minGenesPerSample minSamplesPerGene : ℕ) : Prop :=
  (filter_tpm_matrix df minTpm minGenesPerSample minSamplesPerGene).1 =
    ⟨(df.rows.filter (fun r => decide (minSamplesPerGene ≤
        (specKeptSamples df minTpm minGenesPerSample).countP
          (fun j => decide (minTpm < r.2.getD j 0))))).map
        (fun r => (r.1, (specKeptSamples df minTpm minGenesPerSample).map
          (fun j => r.2.getD j 0))),
     (specKeptSamples df minTpm minGenesPerSample).map (fun j => df.cols.getD j "")⟩

instance (df : Frame ℚ) (t : ℚ) (a b : ℕ) : Decidable (FilterClaim df t a b) := by
  unfold FilterClaim; infer_instance

/-- `sub` is an exact submatrix of `df`: its columns are some positions of
`df`'s columns kept in their original order, its rows come from a sublist of
`df`'s rows, and every retained cell is the corresponding input cell. -/
def IsSubmatrix (sub df : Frame ℚ) : Prop :=
  ∃ ps : List ℕ, ps.Sublist (List.range df.cols.length) ∧
    ∃ rs : List (Label × List ℚ), rs.Sublist df.rows ∧
      sub.cols = ps.map (fun j => df.cols.getD j "") ∧
      sub.rows = rs.map (fun r => (r.1, ps.map (fun j => r.2.getD j 0)))

/-- Reading every position of a list via `getD` reproduces the list. -/
lemma map_getD_range {α : Type} (l : List α) (d : α) :
    (List.range l.length).map (fun j => l.getD j d) = l := by
  induction l with
  | nil => rfl
  | cons a l ih =>
    rw [List.length_cons, List.range_succ_eq_map, List.map_cons, List.map_map]
    simp only [Function.comp_def, List.getD_cons_zero, List.getD_cons_succ]
    rw [ih]

lemma IsSubmatrix.cols_sublist {sub df : Frame ℚ} (h : IsSubmatrix sub df) :
    sub.cols.Sublist df.cols := by
  obtain ⟨ps, hps, rs, hrs, hc, hr⟩ := h
  rw [hc]
  have := hps.map (fun j => df.cols.getD j "")
  rwa [map_getD_range] at this

lemma IsSubmatrix.rowLabels_sublist {sub df : Frame ℚ} (h : IsSubmatrix sub df) :
    (sub.rows.map Prod.fst).Sublist (df.rows.map Prod.fst) := by
  obtain ⟨ps, hps, rs, hrs, hc, hr⟩ := h
  rw [hr, List.map_map]
  exact hrs.map Prod.fst

/-- Concrete input showing the boundary divergence of claim C1. -/
def C1cex : Frame ℚ := ⟨[("G1", [0])], ["S1"]⟩

/-- Concrete input for the amended claim C1. -/
def C1wit : Frame ℚ := ⟨[("G1", [2, 0]), ("G2", [0, 3])], ["S1", "S2"]⟩

/-- **C1, counterexample.**  The claim fails on the single-gene matrix
`C1cex` with `min_tpm = 1`, `min_genes_per_sample = 1`,
`min_samples_per_gene = 0`: no sample passes stage one, so the code returns a
completely empty DataFrame, whereas the claimed characterisation keeps the
gene `G1` (its detection count `0` is at least the threshold `0`). -/
theorem C1_filter_claim_counterexample : ¬ FilterClaim C1cex 1 1 0 := by decide

/-- **C1 (amended).**  Whenever the input is non-empty and at least one sample
survives stage one, `filter_tpm_matrix` keeps exactly the samples in which at
least `min_genes_per_sample` genes have value strictly greater than `min_tpm`,
and exactly the genes whose value is strictly greater than `min_tpm` in at
least `min_samples_per_gene` of the kept samples, the gene-stage counts being
computed only over the surviving samples.  (When no sample survives, the code
returns an entirely empty pair instead, as the counterexample shows.) -/
theorem C1_filter_two_stage (df : Frame ℚ) (t : ℚ) (mgs msg : ℕ)
    (hne : df.isEmpty = false) (hkept : keptSamplePos df t mgs ≠ []) :
    FilterClaim df t mgs msg := by
  have hne' : ¬df.rows = [] ∧ ¬df.cols = [] := by
    simpa [Frame.isEmpty] using hne
  have hsel : (selectCols df (keptSamplePos df t mgs)).isEmpty = false := by
    simp only [selectCols, Frame.isEmpty, Bool.or_eq_false_iff,
      List.isEmpty_eq_false, ne_eq, List.map_eq_nil_iff]
    exact ⟨hne'.1, hkept⟩
  unfold FilterClaim filter_tpm_matrix
  rw [hne]
  simp only [Bool.false_eq_true, if_false]
  rw [hsel]
  simp only [Bool.false_eq_true, if_false]
  have hspec : specKeptSamples df t mgs = keptSamplePos df t mgs := rfl
  rw [hspec]
  refine congrArg₂ Frame.mk ?_ rfl
  show List.filter _ (List.map (fun r => (r.1, (keptSamplePos df t mgs).map
      (fun j => r.2.getD j 0))) df.rows) = _
  rw [List.filter_map]
  refine congrArg₂ List.map rfl (congrArg₂ List.filter ?_ rfl)
  funext r
  simp only [Function.comp_def, samplesPerGene, List.countP_map]

/-- **C1, witness for the amended theorem.** -/
theorem C1_filter_two_stage_witness :
    C1wit.isEmpty = false ∧ keptSamplePos C1wit 1 1 ≠ [] ∧ FilterClaim C1wit 1 1 1 :=
  ⟨by decide, by decide, C1_filter_two_stage C1wit 1 1 1 (by decide) (by decide)⟩

/-- **C9.**  For every input DataFrame and thresholds, the filtered matrix
returned by `filter_tpm_matrix` is an exact submatrix of the input: its column
list and its row-label list are sublists (subsets kept in original order) of
the input's, and every retained cell equals the corresponding input cell.
(The embedding is purely functional, matching the source, which only slices
`df` with `.loc` and never writes to it, so the input is left unchanged.) -/
theorem C9_filter_is_submatrix (df : Frame ℚ) (t : ℚ) (mgs msg : ℕ) :
    IsSubmatrix (filter_tpm_matrix df t mgs msg).1 df ∧
    ((filter_tpm_matrix df t mgs msg).1.cols).Sublist df.cols ∧
    (((filter_tpm_matrix df t mgs msg).1.rows).map Prod.fst).Sublist
      (df.rows.map Prod.fst) := by
  have hsub : IsSubmatrix (filter_tpm_matrix df t mgs msg).1 df := by
    unfold filter_tpm_matrix
    by_cases h1 : df.isEmpty
    · rw [h1]
      exact ⟨[], List.nil_sublist _, [], List.nil_sublist _, rfl, rfl⟩
    · rw [Bool.not_eq_true] at h1
      rw [h1]
      simp only [Bool.false_eq_true, if_false]
      by_cases h2 : (selectCols df (keptSamplePos df t mgs)).isEmpty
      · rw [h2]
        exact ⟨[], List.nil_sublist _, [], List.nil_sublist _, rfl, rfl⟩
      · rw [Bool.not_eq_true] at h2
        rw [h2]
        simp only [Bool.false_eq_true, if_false]
        refine ⟨keptSamplePos df t mgs, List.filter_sublist _, ?_⟩
        refine ⟨df.rows.filter ((fun r => decide (msg ≤ samplesPerGene t r.2)) ∘
          (fun r => (r.1, (keptSamplePos df t mgs).map (fun j => r.2.getD j 0)))),
          List.filter_sublist _, rfl, ?_⟩
        show List.filter _ (List.map _ df.rows) = _
        rw [List.filter_map]
  exact ⟨hsub, hsub.cols_sublist, hsub.rowLabels_sublist⟩

/-!
## `select_highly_variable_genes` (sc_processor.py, lines 80-116)
-/

/-- `df.mean(axis=1)` for one gene row. -/
def rowMean (xs : List ℚ) : ℚ := xs.sum / (xs.length : ℚ)

/-- `df.var(axis=1)` for one gene row: pandas sample variance (`ddof = 1`),
which is `NaN` (modelled as `none`) when there are fewer than two samples. -/
def rowVar (xs : List ℚ) : Option ℚ :=
  if xs.length ≤ 1 then none
  else some ((xs.map (fun x => (x - rowMean xs) ^ 2)).sum / ((xs.length : ℚ) - 1))

/-- The `epsilon = 1e-9` guard added to the mean. -/
def hvgEps : ℚ := 1 / 1000000000

/-- `dispersion = (var_expr / (mean_expr + epsilon)).fillna(0)` for one row:
a `NaN` variance propagates to the dispersion and is then filled with `0`. -/
def dispersionOf (xs : List ℚ) : ℚ :=
  match rowVar xs with
  | none => 0
  | some v => v / (rowMean xs + hvgEps)

/-- One row of the metrics table packed for plotting. -/
structure HVGMetric where
  gene : Label
  mean : ℚ
  variance : Option ℚ
  dispersion : ℚ
  is_hvg : Bool
  deriving DecidableEq

/-- The dispersion series, one entry per gene row of `df`. -/
def dispPairs (df : Frame ℚ) : List (Label × ℚ) :=
  df.rows.map (fun r => (r.1, dispersionOf r.2))

/-- Descending-by-dispersion comparison used to model `nlargest`. -/
def hvgLE (a b : Label × ℚ) : Prop := b.2 ≤ a.2

instance : DecidableRel hvgLE := fun a b => inferInstanceAs (Decidable (b.2 ≤ a.2))

instance : IsTotal (Label × ℚ) hvgLE := ⟨fun a b => le_total b.2 a.2⟩

instance : IsTrans (Label × ℚ) hvgLE := ⟨fun _ _ _ hab hbc => le_trans hbc hab⟩

/-- `dispersion.nlargest` ordering: the dispersion series sorted by value in
descending order with a stable sort, matching `nlargest`'s `keep='first'`. -/
def hvgSorted (df : Frame ℚ) : List (Label × ℚ) :=
  List.insertionSort hvgLE (dispPairs df)

/-- `hvg_indices = dispersion.nlargest(min(n_top_genes, len(dispersion))).index`. -/
def hvgIndices (df : Frame ℚ) (nTopGenes : ℕ) : List Label :=
  ((hvgSorted df).take (min nTopGenes (dispPairs df).length)).map Prod.fst

/-- `select_highly_variable_genes(df, n_top_genes)`: selects
`df.loc[hvg_indices]` (label lookup in `nlargest` order; on a duplicated index
`.loc` returns every row carrying the label) and packs the per-gene metrics,
flagging `is_hvg` by label membership (`dispersion.index.isin(hvg_indices)`). -/
def select_highly_variable_genes (df : Frame ℚ) (nTopGenes : ℕ) :
    Frame ℚ × List HVGMetric :=
  if df.isEmpty then (Frame.empty, []) else
  (locRows df (hvgIndices df nTopGenes),
   df.rows.map (fun r =>
     ⟨r.1, rowMean r.2, rowVar r.2, dispersionOf r.2,
      (hvgIndices df nTopGenes).contains r.1⟩))

/-- Spec-side dispersion, following claim C2's words: variance over samples
divided by `mean + 1e-9`, with the `NaN` case (fewer than two samples, where
the sample variance is undefined) replaced by `0`. -/
def specDispersion (xs : List ℚ) : ℚ :=
  if xs.length ≤ 1 then 0
  else ((xs.map (fun x => (x - rowMean xs) ^ 2)).sum / ((xs.length : ℚ) - 1)) /
    (rowMean xs + 1 / 1000000000)

lemma dispersionOf_eq_spec (xs : List ℚ) : dispersionOf xs = specDispersion xs := by
  unfold dispersionOf rowVar specDispersion hvgEps
  by_cases h : xs.length ≤ 1 <;> simp [h]

lemma length_filterMap_of_isSome {α β : Type} (f : α → Option β) (l : List α)
    (h : ∀ a ∈ l, (f a).isSome) : (l.filterMap f).length = l.length := by
  induction l with
  | nil => rfl
  | cons a l ih =>
    rw [List.filterMap_cons]
    obtain ⟨b, hb⟩ := Option.isSome_iff_exists.mp (h a (List.mem_cons_self a l))
    rw [hb]
    simp [ih (fun x hx => h x (List.mem_cons_of_mem a hx))]

lemma hvgSorted_perm (df : Frame ℚ) : (hvgSorted df).Perm (dispPairs df) :=
  List.perm_insertionSort _ _

lemma hvgSorted_pairwise (df : Frame ℚ) :
    List.Pairwise (fun a b : Label × ℚ => b.2 ≤ a.2) (hvgSorted df) :=
  List.sorted_insertionSort hvgLE (dispPairs df)

lemma mem_hvgIndices {df : Frame ℚ} {nTop : ℕ} {g : Label}
    (hg : g ∈ hvgIndices df nTop) : ∃ r ∈ df.rows, r.1 = g := by
  obtain ⟨p, hp, hpg⟩ := List.mem_map.mp hg
  have hps : p ∈ hvgSorted df := (List.take_sublist _ _).mem hp
  have hpd : p ∈ dispPairs df := (hvgSorted_perm df).mem_iff.mp hps
  obtain ⟨r, hr, hrp⟩ := List.mem_map.mp hpd
  exact ⟨r, hr, by rw [← hpg, ← hrp]⟩

/-- On a unique index, `.loc` label lookup returns exactly the one matching
row. -/
lemma filter_key_eq_singleton {α : Type} {l : List (Label × α)}
    (h : (l.map Prod.fst).Nodup) {r : Label × α} (hr : r ∈ l) :
    l.filter (fun x => x.1 == r.1) = [r] := by
  induction l with
  | nil => cases hr
  | cons a l ih =>
    rw [List.map_cons, List.nodup_cons] at h
    rcases List.mem_cons.mp hr with rfl | hr'
    · rw [List.filter_cons_of_pos (by simp)]
      have hnone : ∀ x ∈ l, ¬((fun x : Label × α => x.1 == r.1) x = true) := by
        intro x hx hbeq
        exact h.1 (by
          rw [beq_iff_eq] at hbeq
          rw [← hbeq]
          exact List.mem_map.mpr ⟨x, hx, rfl⟩)
      rw [List.filter_eq_nil_iff.mpr hnone]
    · have hna : ¬((a.1 == r.1) = true) := by
        intro hbeq
        exact h.1 (by
          rw [beq_iff_eq] at hbeq
          rw [hbeq]
          exact List.mem_map.mpr ⟨r, hr', rfl⟩)
      rw [List.filter_cons_of_neg (by simpa using hna)]
      exact ih h.2 hr'

lemma length_flatMap_of_forall_singleton {α β : Type} (l : List α) (f : α → List β)
    (h : ∀ a ∈ l, (f a).length = 1) : (l.flatMap f).length = l.length := by
  induction l with
  | nil => rfl
  | cons a l ih =>
    rw [List.flatMap_cons, List.length_append, h a (List.mem_cons_self a l),
      ih (fun x hx => h x (List.mem_cons_of_mem a hx)), List.length_cons]
    omega

/-- Spec-side statement of claim C2: the selection returns exactly
`min(n_top_genes, #genes)` of `df`'s gene rows (with all sample columns),
every selected gene's dispersion dominates every unselected gene's, the
metrics table computes the dispersion `variance / (mean + 1e-9)` with `NaN`
replaced by `0`, and `is_hvg` flags exactly the selected genes. -/
def HVGClaim (df : Frame ℚ) (nTop : ℕ) : Prop :=
  (select_highly_variable_genes df nTop).1.rows.length = min nTop df.rows.length ∧
  (select_highly_variable_genes df nTop).1.cols = df.cols ∧
  (∀ r ∈ (select_highly_variable_genes df nTop).1.rows, r ∈ df.rows) ∧
  (∀ r ∈ (select_highly_variable_genes df nTop).1.rows, ∀ r' ∈ df.rows,
    r' ∉ (select_highly_variable_genes df nTop).1.rows →
    dispersionOf r'.2 ≤ dispersionOf r.2) ∧
  (select_highly_variable_genes df nTop).2.map (fun m => (m.gene, m.dispersion)) =
    df.rows.map (fun r => (r.1, specDispersion r.2)) ∧
  ∀ m ∈ (select_highly_variable_genes df nTop).2,
    (m.is_hvg = true ↔ ∃ r ∈ (select_highly_variable_genes df nTop).1.rows,
      r.1 = m.gene)

instance (df : Frame ℚ) (n : ℕ) : Decidable (HVGClaim df n) := by
  unfold HVGClaim; infer_instance

/-- Concrete input showing claim C2 fails on a duplicated gene index. -/
def C2cex : Frame ℚ := ⟨[("G", [0, 0]), ("G", [0, 4])], ["S1", "S2"]⟩

/-- Concrete input for the amended claim C2. -/
def C2wit : Frame ℚ := ⟨[("G1", [0, 0]), ("G2", [0, 4])], ["S1", "S2"]⟩

/-- **C2, counterexample.**  On a DataFrame whose gene index carries the label
`G` twice, `n_top_genes = 1` selects the single index entry `G`, but
`df.loc[['G']]` then returns both rows carrying that label: the result has 2
rows instead of `min(1, 2) = 1`. -/
theorem C2_hvg_claim_counterexample : ¬ HVGClaim C2cex 1 := by
  intro h
  have hIdx : hvgIndices C2cex 1 = ["G"] := by
    show (List.take 1 (List.insertionSort hvgLE (dispPairs C2cex))).map Prod.fst = ["G"]
    have hd : dispPairs C2cex =
        [("G", dispersionOf [0, 0]), ("G", dispersionOf [0, 4])] := rfl
    rw [hd]
    by_cases hc : hvgLE ("G", dispersionOf [0, 0]) ("G", dispersionOf [0, 4])
    · simp [List.insertionSort, List.orderedInsert, hc]
    · simp [List.insertionSort, List.orderedInsert, hc]
  have hfst : (select_highly_variable_genes C2cex 1).1 =
      locRows C2cex (hvgIndices C2cex 1) := by
    unfold select_highly_variable_genes
    rfl
  have hlen : (select_highly_variable_genes C2cex 1).1.rows.length = 2 := by
    rw [hfst]
    show ((hvgIndices C2cex 1).flatMap _).length = 2
    rw [hIdx]
    rfl
  have h1 := h.1
  rw [hlen] at h1
  exact absurd h1 (by decide)

/-- **C2 (amended).**  For every non-empty DataFrame whose gene index is
unique (which `clean_and_validate_df` guarantees upstream),
`select_highly_variable_genes` computes each gene's dispersion
`variance / (mean + 1e-9)` with `NaN` replaced by `0`, returns exactly the
`min(n_top_genes, #genes)` rows of `df` with the largest dispersions, and the
metrics table's `is_hvg` flag marks exactly the selected genes. -/
theorem C2_hvg_selection (df : Frame ℚ) (nTop : ℕ)
    (hne : df.isEmpty = false) (hnodup : (df.rows.map Prod.fst).Nodup) :
    HVGClaim df nTop := by
  have hfst : (select_highly_variable_genes df nTop).1 =
      locRows df (hvgIndices df nTop) := by
    unfold select_highly_variable_genes
    rw [hne]
    simp
  have hsnd : (select_highly_variable_genes df nTop).2 =
      df.rows.map (fun r =>
        ⟨r.1, rowMean r.2, rowVar r.2, dispersionOf r.2,
         (hvgIndices df nTop).contains r.1⟩) := by
    unfold select_highly_variable_genes
    rw [hne]
    simp
  have hinj : ∀ ⦃x⦄, x ∈ df.rows → ∀ ⦃y⦄, y ∈ df.rows → x.1 = y.1 → x = y :=
    List.inj_on_of_nodup_map hnodup
  have hsingle : ∀ g ∈ hvgIndices df nTop,
      ∃ r ∈ df.rows, r.1 = g ∧ df.rows.filter (fun x => x.1 == g) = [r] := by
    intro g hg
    obtain ⟨r, hr, hr1⟩ := mem_hvgIndices hg
    refine ⟨r, hr, hr1, ?_⟩
    rw [← hr1]
    exact filter_key_eq_singleton hnodup hr
  have hmem : ∀ rr, rr ∈ (select_highly_variable_genes df nTop).1.rows ↔
      rr ∈ df.rows ∧ rr.1 ∈ hvgIndices df nTop := by
    intro rr
    rw [hfst]
    exact mem_locRows
  refine ⟨?_, by rw [hfst]; rfl, fun r hr => ((hmem r).mp hr).1, ?_, ?_, ?_⟩
  · -- length
    rw [hfst]
    show ((hvgIndices df nTop).flatMap _).length = _
    rw [length_flatMap_of_forall_singleton _ _ (fun g hg => by
      obtain ⟨r, _, _, hfil⟩ := hsingle g hg
      simp [hfil])]
    rw [hvgIndices, List.length_map, List.length_take]
    have h1 : (hvgSorted df).length = (dispPairs df).length :=
      (hvgSorted_perm df).length_eq
    have h2 : (dispPairs df).length = df.rows.length := List.length_map _ _
    omega
  · -- dominance
    intro r hrO r' hr' hnot
    obtain ⟨hrdf, hrI⟩ := (hmem r).mp hrO
    obtain ⟨p, hpTake, hp1⟩ := List.mem_map.mp hrI
    have hpd : p ∈ dispPairs df :=
      (hvgSorted_perm df).mem_iff.mp ((List.take_sublist _ _).mem hpTake)
    obtain ⟨r0, hr0, hr0p⟩ := List.mem_map.mp hpd
    have hr0r : r0 = r := by
      refine hinj hr0 hrdf ?_
      have h01 : r0.1 = p.1 := by rw [← hr0p]
      rw [h01, hp1]
    have hpEq : p = (r.1, dispersionOf r.2) := by rw [← hr0p, hr0r]
    have hr'nI : r'.1 ∉ hvgIndices df nTop := fun hin =>
      hnot ((hmem r').mpr ⟨hr', hin⟩)
    have hp' : (r'.1, dispersionOf r'.2) ∈ hvgSorted df :=
      (hvgSorted_perm df).mem_iff.mpr (List.mem_map.mpr ⟨r', hr', rfl⟩)
    have hsplit := hp'
    rw [← List.take_append_drop (min nTop (dispPairs df).length) (hvgSorted df),
      List.mem_append] at hsplit
    cases hsplit with
    | inl htk =>
      exact absurd (List.mem_map.mpr ⟨_, htk, rfl⟩ : r'.1 ∈ hvgIndices df nTop) hr'nI
    | inr hdr =>
      have hpw2 : List.Pairwise (fun a b : Label × ℚ => b.2 ≤ a.2)
          ((hvgSorted df).take (min nTop (dispPairs df).length) ++
           (hvgSorted df).drop (min nTop (dispPairs df).length)) := by
        rw [List.take_append_drop]
        exact hvgSorted_pairwise df
      have h3 := (List.pairwise_append.mp hpw2).2.2 p hpTake _ hdr
      rw [hpEq] at h3
      exact h3
  · -- metrics dispersion formula
    rw [hsnd, List.map_map]
    refine List.map_congr_left fun r _ => ?_
    show (r.1, dispersionOf r.2) = (r.1, specDispersion r.2)
    rw [dispersionOf_eq_spec]
  · -- is_hvg flags exactly the selected genes
    intro m hm
    rw [hsnd] at hm
    obtain ⟨r, hr, hmr⟩ := List.mem_map.mp hm
    have hgene : m.gene = r.1 := by rw [← hmr]
    have hflag : m.is_hvg = (hvgIndices df nTop).contains r.1 := by rw [← hmr]
    rw [hflag, hgene, List.contains_eq_any_beq]
    constructor
    · intro hc
      obtain ⟨g, hg, hbeq⟩ := List.any_eq_true.mp hc
      have hrg : r.1 = g := beq_iff_eq.mp hbeq
      rw [← hrg] at hg
      exact ⟨r, (hmem r).mpr ⟨hr, hg⟩, rfl⟩
    · rintro ⟨rr, hrrO, hrr1⟩
      obtain ⟨_, hrrI⟩ := (hmem rr).mp hrrO
      rw [hrr1] at hrrI
      exact List.any_eq_true.mpr ⟨r.1, hrrI, beq_self_eq_true r.1⟩

/-- **C2, witness for the amended theorem.** -/
theorem C2_hvg_selection_witness :
    C2wit.isEmpty = false ∧ (C2wit.rows.map Prod.fst).Nodup ∧ HVGClaim C2wit 1 :=
  ⟨by decide, by decide, C2_hvg_selection C2wit 1 (by decide) (by decide)⟩

/-!
## `log_transform` (sc_processor.py, lines 67-78)
-/

/-- Elementwise application over all cells, `np.func(df)` / `df + 1`. -/
def Frame.mapCells {α β : Type} (f : α → β) (df : Frame α) : Frame β :=
  ⟨df.rows.map (fun r => (r.1, r.2.map f)), df.cols⟩

/-- `log_transform(df, method)`: returns `df` unchanged when empty, applies
`np.log2(df + 1)` when `method == 'log2'`, and `np.log1p(df)` otherwise.
The two numpy kernels are passed as parameters (`log2f` for `np.log2`,
`log1pf` for `np.log1p`, which computes `ln(1 + x)`), since real logarithms
are not computable; the theorem instantiates them with `Real.logb 2` and
`fun x => Real.log (1 + x)`. -/
def log_transform {α : Type} [Add α] [One α] (log2f log1pf : α → α)
    (df : Frame α) (method : String) : Frame α :=
  if df.isEmpty then df
  else if method = "log2" then (df.mapCells (fun x => x + 1)).mapCells log2f
  else df.mapCells log1pf

/-- **C8.**  For every non-empty DataFrame, `log_transform` with method
`'log2'` returns `log2(x + 1)` elementwise and with any other method string
(including the default `'log1p'` and unrecognised values) returns the natural
logarithm `ln(1 + x)` elementwise, preserving the shape, index and columns. -/
theorem C8_log_transform (df : Frame ℝ) (method : String)
    (hne : df.isEmpty = false) :
    log_transform (Real.logb 2) (fun x => Real.log (1 + x)) df method =
      ⟨df.rows.map (fun r => (r.1, r.2.map (fun x =>
          if method = "log2" then Real.logb 2 (x + 1) else Real.log (1 + x)))),
       df.cols⟩ := by
  unfold log_transform
  rw [hne]
  simp only [Bool.false_eq_true, if_false]
  by_cases hm : method = "log2"
  · simp only [hm, if_true, Frame.mapCells, List.map_map]
    refine congrArg₂ Frame.mk ?_ rfl
    refine List.map_congr_left fun r _ => ?_
    show (r.1, (r.2.map (fun x => x + 1)).map (Real.logb 2)) = _
    rw [List.map_map]
    rfl
  · simp only [hm, if_false, Frame.mapCells]

/-- **C8, witness.** -/
theorem C8_log_transform_witness :
    (⟨[("G", [0])], ["S"]⟩ : Frame ℝ).isEmpty = false ∧
    log_transform (Real.logb 2) (fun x => Real.log (1 + x))
        (⟨[("G", [0])], ["S"]⟩ : Frame ℝ) "log2" =
      ⟨(⟨[("G", [0])], ["S"]⟩ : Frame ℝ).rows.map (fun r => (r.1, r.2.map (fun x =>
          if "log2" = "log2" then Real.logb 2 (x + 1) else Real.log (1 + x)))),
       (⟨[("G", [0])], ["S"]⟩ : Frame ℝ).cols⟩ :=
  ⟨rfl, C8_log_transform ⟨[("G", [0])], ["S"]⟩ "log2" rfl⟩

/-!
## `scale_data` (sc_processor.py, lines 118-138)

`StandardScaler` standardises each feature to `(x - mean) / scale`, where
`scale` is the square root of the population variance (`ddof = 0`).  The code
transposes so that this happens gene-wise.  Square roots are not rational, so
the per-gene scale factor is an explicit parameter `sigma`, pinned down in the
theorem by the hypothesis `sigma g ^ 2 = popVar (row g)` — exactly the
defining property of `StandardScaler`'s `scale_` for a non-constant row.
-/

/-- Population variance (`ddof = 0`), as used by `StandardScaler`. -/
def popVar (xs : List ℚ) : ℚ :=
  (xs.map (fun x => (x - rowMean xs) ^ 2)).sum / (xs.length : ℚ)

/-- One gene row of `scaler.fit_transform(df.T).T`: `(x - mean) / scale`. -/
def scaleRow (s : ℚ) (xs : List ℚ) : List ℚ :=
  xs.map (fun x => (x - rowMean xs) / s)

/-- `scale_data(df)`: empty in, empty out; otherwise standardise each gene row
and rebuild the DataFrame with the input's index and columns. -/
def scale_data (sigma : Label → ℚ) (df : Frame ℚ) : Frame ℚ :=
  if df.isEmpty then Frame.empty
  else ⟨df.rows.map (fun r => (r.1, scaleRow (sigma r.1) r.2)), df.cols⟩

lemma sum_map_sub_div (m s : ℚ) (xs : List ℚ) :
    (xs.map (fun x => (x - m) / s)).sum = (xs.sum - (xs.length : ℚ) * m) / s := by
  induction xs with
  | nil => simp
  | cons a xs ih =>
    rw [List.map_cons, List.sum_cons, ih, div_add_div_same, List.length_cons,
      List.sum_cons]
    congr 1
    push_cast
    ring

lemma sum_map_sq_div (m s : ℚ) (xs : List ℚ) :
    (xs.map (fun x => ((x - m) / s) ^ 2)).sum =
      (xs.map (fun x => (x - m) ^ 2)).sum / s ^ 2 := by
  induction xs with
  | nil => simp
  | cons a xs ih =>
    rw [List.map_cons, List.sum_cons, ih, List.map_cons, List.sum_cons,
      ← div_add_div_same]
    congr 1
    rw [div_pow]

/-- A standardised row has mean zero (for any scale factor). -/
lemma scaleRow_mean_eq_zero (s : ℚ) (xs : List ℚ) (hxs : xs ≠ []) :
    rowMean (scaleRow s xs) = 0 := by
  have hn : (xs.length : ℚ) ≠ 0 := by
    have h0 : xs.length ≠ 0 := by simpa [List.length_eq_zero] using hxs
    exact_mod_cast h0
  unfold scaleRow rowMean
  rw [sum_map_sub_div, List.length_map]
  have hm : (xs.length : ℚ) * (xs.sum / (xs.length : ℚ)) = xs.sum := by
    field_simp
  rw [hm]
  simp

/-- A standardised row has unit (population) variance when the scale factor
squares to the row's nonzero population variance. -/
lemma scaleRow_var_eq_one (s : ℚ) (xs : List ℚ) (hxs : xs ≠ [])
    (hs2 : s ^ 2 = popVar xs) (hvar : popVar xs ≠ 0) :
    popVar (scaleRow s xs) = 1 := by
  have hmean := scaleRow_mean_eq_zero s xs hxs
  have key : popVar (scaleRow s xs) = popVar xs / s ^ 2 := by
    unfold popVar
    rw [hmean]
    simp only [sub_zero]
    unfold scaleRow
    rw [List.map_map, List.length_map]
    have hcomp : ((fun x : ℚ => x ^ 2) ∘ fun x => (x - rowMean xs) / s) =
        fun x => ((x - rowMean xs) / s) ^ 2 := rfl
    rw [hcomp, sum_map_sq_div, div_right_comm]
  rw [key, hs2, div_self hvar]

/-- **C5.**  For every non-empty DataFrame, `scale_data` preserves the shape,
index and columns, and standardises each gene row across samples: every row
whose population variance is non-zero ends with mean `0` and variance `1`
(with the scale factor characterised by `sigma g ^ 2 = popVar`, i.e.
`sigma g = sqrt(Var)` as computed by `StandardScaler`). -/
theorem C5_scale_data (sigma : Label → ℚ) (df : Frame ℚ)
    (hne : df.isEmpty = false) :
    (scale_data sigma df).cols = df.cols ∧
    (scale_data sigma df).rows.map Prod.fst = df.rows.map Prod.fst ∧
    (scale_data sigma df).rows.map (fun r => r.2.length) =
      df.rows.map (fun r => r.2.length) ∧
    ∀ r ∈ df.rows, r.2 ≠ [] → popVar r.2 ≠ 0 → (sigma r.1) ^ 2 = popVar r.2 →
      (r.1, scaleRow (sigma r.1) r.2) ∈ (scale_data sigma df).rows ∧
      rowMean (scaleRow (sigma r.1) r.2) = 0 ∧
      popVar (scaleRow (sigma r.1) r.2) = 1 := by
  have hout : scale_data sigma df =
      ⟨df.rows.map (fun r => (r.1, scaleRow (sigma r.1) r.2)), df.cols⟩ := by
    unfold scale_data
    rw [hne]
    simp
  rw [hout]
  refine ⟨rfl, ?_, ?_, ?_⟩
  · rw [List.map_map]
    rfl
  · rw [List.map_map]
    refine List.map_congr_left fun r _ => ?_
    show (scaleRow (sigma r.1) r.2).length = r.2.length
    exact List.length_map _ _
  · intro r hr hxs hvar hs2
    exact ⟨List.mem_map.mpr ⟨r, hr, rfl⟩,
      scaleRow_mean_eq_zero _ _ hxs,
      scaleRow_var_eq_one _ _ hxs hs2 hvar⟩

/-- Concrete input for claim C5's witness. -/
def C5wit : Frame ℚ := ⟨[("G", [0, 2])], ["S1", "S2"]⟩

/-- **C5, witness.** -/
theorem C5_scale_data_witness :
    C5wit.isEmpty = false ∧
    ((scale_data (fun _ => 1) C5wit).cols = C5wit.cols ∧
     (scale_data (fun _ => 1) C5wit).rows.map Prod.fst = C5wit.rows.map Prod.fst ∧
     (scale_data (fun _ => 1) C5wit).rows.map (fun r => r.2.length) =
       C5wit.rows.map (fun r => r.2.length) ∧
     ∀ r ∈ C5wit.rows, r.2 ≠ [] → popVar r.2 ≠ 0 →
       ((fun _ : Label => (1 : ℚ)) r.1) ^ 2 = popVar r.2 →
       (r.1, scaleRow ((fun _ : Label => (1 : ℚ)) r.1) r.2) ∈
         (scale_data (fun _ => 1) C5wit).rows ∧
       rowMean (scaleRow ((fun _ : Label => (1 : ℚ)) r.1) r.2) = 0 ∧
       popVar (scaleRow ((fun _ : Label => (1 : ℚ)) r.1) r.2) = 1) :=
  ⟨rfl, C5_scale_data (fun _ => 1) C5wit rfl⟩

/-!
## `run_pca_pipeline` (sc_processor.py, lines 140-165)

The PCA decomposition itself is scikit-learn; the transformed coordinates
(`X_pca[i, j]`, sample `i`, component `j`) and the explained-variance ratios
are oracles.  Everything else — the transpose so that samples become
observations, the clamping `actual_n = min(n_components, n_samples,
n_features)`, the `PC1..PCn` column names and the sample index — is embedded
from the source.
-/

/-- `run_pca_pipeline(df_scaled, n_components)`: returns the coordinate
DataFrame (indexed by the samples of `df_scaled`, columns `PC1..PC{actual_n}`)
and the explained-variance-ratio vector of length `actual_n`. -/
def run_pca_pipeline (coords : ℕ → ℕ → ℚ) (evr : ℕ → ℚ)
    (df_scaled : Frame ℚ) (nComponents : ℕ) : Frame ℚ × List ℚ :=
  if df_scaled.isEmpty then (Frame.empty, []) else
  let nSamples := df_scaled.cols.length
  let nFeatures := df_scaled.rows.length
  let actualN := min nComponents (min nSamples nFeatures)
  (⟨df_scaled.cols.enum.map (fun s =>
      (s.2, (List.range actualN).map (fun j => coords s.1 j))),
    (List.range actualN).map (fun i => "PC" ++ toString (i + 1))⟩,
   (List.range actualN).map evr)

/-- **C7.**  For every non-empty scaled DataFrame and requested
`n_components`, `run_pca_pipeline` computes exactly
`actual_n = min(n_components, n_samples, n_genes)` principal components: the
coordinate DataFrame is indexed by the samples of the input, its columns are
named `PC1` through `PC{actual_n}`, and every sample row carries `actual_n`
coordinates. -/
theorem C7_pca_pipeline (coords : ℕ → ℕ → ℚ) (evr : ℕ → ℚ)
    (df_scaled : Frame ℚ) (nComponents : ℕ)
    (hne : df_scaled.isEmpty = false) :
    (run_pca_pipeline coords evr df_scaled nComponents).1.cols.length =
      min nComponents (min df_scaled.cols.length df_scaled.rows.length) ∧
    (run_pca_pipeline coords evr df_scaled nComponents).1.cols =
      (List.range (min nComponents
        (min df_scaled.cols.length df_scaled.rows.length))).map
        (fun i => "PC" ++ toString (i + 1)) ∧
    (run_pca_pipeline coords evr df_scaled nComponents).1.rows.map Prod.fst =
      df_scaled.cols ∧
    ∀ r ∈ (run_pca_pipeline coords evr df_scaled nComponents).1.rows,
      r.2.length =
        min nComponents (min df_scaled.cols.length df_scaled.rows.length) := by
  have hout : (run_pca_pipeline coords evr df_scaled nComponents).1 =
      ⟨df_scaled.cols.enum.map (fun s =>
         (s.2, (List.range (min nComponents
           (min df_scaled.cols.length df_scaled.rows.length))).map
           (fun j => coords s.1 j))),
       (List.range (min nComponents
         (min df_scaled.cols.length df_scaled.rows.length))).map
         (fun i => "PC" ++ toString (i + 1))⟩ := by
    unfold run_pca_pipeline
    rw [hne]
    simp
  rw [hout]
  refine ⟨?_, rfl, ?_, ?_⟩
  · show ((List.range _).map _).length = _
    rw [List.length_map, List.length_range]
  · show (df_scaled.cols.enum.map _).map Prod.fst = _
    rw [List.map_map]
    exact List.enum_map_snd df_scaled.cols
  · intro r hr
    obtain ⟨s, _, hs⟩ := List.mem_map.mp hr
    rw [← hs]
    show ((List.range _).map _).length = _
    rw [List.length_map, List.length_range]

/-- **C7, witness.** -/
theorem C7_pca_pipeline_witness :
    (⟨[("G1", [1, 2]), ("G2", [3, 4]), ("G3", [5, 6])], ["S1", "S2"]⟩ :
        Frame ℚ).isEmpty = false ∧
    ((run_pca_pipeline (fun _ _ => 0) (fun _ => 0)
        ⟨[("G1", [1, 2]), ("G2", [3, 4]), ("G3", [5, 6])], ["S1", "S2"]⟩
        50).1.cols.length = min 50 (min 2 3) ∧
     (run_pca_pipeline (fun _ _ => 0) (fun _ => 0)
        ⟨[("G1", [1, 2]), ("G2", [3, 4]), ("G3", [5, 6])], ["S1", "S2"]⟩
        50).1.cols = (List.range (min 50 (min 2 3))).map
          (fun i => "PC" ++ toString (i + 1)) ∧
     (run_pca_pipeline (fun _ _ => 0) (fun _ => 0)
        ⟨[("G1", [1, 2]), ("G2", [3, 4]), ("G3", [5, 6])], ["S1", "S2"]⟩
        50).1.rows.map Prod.fst = ["S1", "S2"] ∧
     ∀ r ∈ (run_pca_pipeline (fun _ _ => 0) (fun _ => 0)
        ⟨[("G1", [1, 2]), ("G2", [3, 4]), ("G3", [5, 6])], ["S1", "S2"]⟩
        50).1.rows, r.2.length = min 50 (min 2 3)) :=
  ⟨rfl, C7_pca_pipeline (fun _ _ => 0) (fun _ => 0)
    ⟨[("G1", [1, 2]), ("G2", [3, 4]), ("G3", [5, 6])], ["S1", "S2"]⟩ 50 rfl⟩

/-!
## `run_clustering_benchmark` (sc_clustering.py, lines 7-109)

The three scikit-learn models and the two scorers are external: `fit` maps a
method name, a `k` and the PCA coordinate matrix to the predicted labels, with
`none` modelling the exception swallowed by the `try/except` around each
fit-and-score step; `ami`/`ari` map a ground-truth string column and predicted
labels to the raw scores.  Alignment, target validation, the leaderboard rows
and the final sort are embedded from the source.
-/

/-- `pca_df.index.intersection(cell_metadata.index)`: with the default
`sort=False` pandas keeps the calling index's order and deduplicates. -/
def commonIndex (pcaLabels metaLabels : List Label) : List Label :=
  (pcaLabels.filter (fun x => decide (x ∈ metaLabels))).dedup

/-- The aligned index of a benchmark run. -/
def benchCommonIndex (pca_df : Frame ℚ) (meta : Frame String) : List Label :=
  commonIndex (pca_df.rows.map Prod.fst) (meta.rows.map Prod.fst)

/-- `pca_aligned = pca_df.loc[common_index]`. -/
def benchPcaAligned (pca_df : Frame ℚ) (meta : Frame String) : Frame ℚ :=
  locRows pca_df (benchCommonIndex pca_df meta)

/-- `meta_aligned = cell_metadata.loc[common_index]`. -/
def benchMetaAligned (pca_df : Frame ℚ) (meta : Frame String) : Frame String :=
  locRows meta (benchCommonIndex pca_df meta)

/-- `valid_targets = [col for col in target_cols if col in meta_aligned.columns]`. -/
def benchValidTargets (pca_df : Frame ℚ) (meta : Frame String)
    (targetCols : List Label) : List Label :=
  targetCols.filter (fun c => decide (c ∈ (benchMetaAligned pca_df meta).cols))

/-- `X = pca_aligned.values`. -/
def benchX (pca_df : Frame ℚ) (meta : Frame String) : List (List ℚ) :=
  (benchPcaAligned pca_df meta).rows.map Prod.snd

/-- `meta_aligned[target].astype(str).values`: the ground-truth column. -/
def columnOf (df : Frame String) (c : Label) : List String :=
  df.rows.map (fun r => r.2.getD (List.indexOf c df.cols) "")

/-- One leaderboard row: method, `k`, and per-target `(AMI, ARI)` scores. -/
structure BenchRow where
  method : String
  k : ℕ
  scores : List (Label × ℚ × ℚ)
  deriving DecidableEq

/-- The three baseline models, in the order of the `models` dict. -/
def benchMethods : List String := ["KMeans", "HClust", "Spectral"]

/-- Python's `round(x, 3)`. -/
def round3 (q : ℚ) : ℚ := ((round (q * 1000) : ℤ) : ℚ) / 1000

/-- The `AMI_{valid_targets[0]}` sort key of a leaderboard row. -/
def primaryAMI (row : BenchRow) : ℚ :=
  match row.scores with
  | [] => 0
  | s :: _ => s.2.1

/-- `results_df.sort_values(by=AMI_first_target, ascending=False)` ordering. -/
def benchLE (a b : BenchRow) : Prop := primaryAMI b ≤ primaryAMI a

instance : DecidableRel benchLE := fun a b =>
  inferInstanceAs (Decidable (primaryAMI b ≤ primaryAMI a))

instance : IsTotal BenchRow benchLE := ⟨fun a b => le_total (primaryAMI b) (primaryAMI a)⟩

instance : IsTrans BenchRow benchLE := ⟨fun _ _ _ hab hbc => le_trans hbc hab⟩

/-- The `all_results` accumulator: one row appended per `k` and per method
whose fit-and-score step does not raise. -/
def benchAllResults (fit : String → ℕ → List (List ℚ) → Option (List ℕ))
    (ami ari : List String → List ℕ → ℚ) (pca_df : Frame ℚ)
    (meta : Frame String) (nClustersRange : List ℕ)
    (targetCols : List Label) : List BenchRow :=
  nClustersRange.flatMap (fun k =>
    benchMethods.filterMap (fun m =>
      (fit m k (benchX pca_df meta)).map (fun labelsPred =>
        ⟨m, k, (benchValidTargets pca_df meta targetCols).map (fun t =>
          (t, round3 (ami (columnOf (benchMetaAligned pca_df meta) t) labelsPred),
              round3 (ari (columnOf (benchMetaAligned pca_df meta) t) labelsPred)))⟩)))

/-- `run_clustering_benchmark(pca_df, cell_metadata, n_clusters_range,
target_cols)`: empty leaderboard when no requested target column exists,
otherwise the accumulated rows sorted descending by the AMI of the first
valid target. -/
def run_clustering_benchmark (fit : String → ℕ → List (List ℚ) → Option (List ℕ))
    (ami ari : List String → List ℕ → ℚ) (pca_df : Frame ℚ)
    (meta : Frame String) (nClustersRange : List ℕ)
    (targetCols : List Label) : List BenchRow :=
  if benchValidTargets pca_df meta targetCols = [] then []
  else List.insertionSort benchLE
    (benchAllResults fit ami ari pca_df meta nClustersRange targetCols)

/-- **C3.**  `run_clustering_benchmark` aligns the PCA table and the metadata
table by index intersection before any clustering or scoring: the aligned
index contains exactly the labels present in both tables, every sample row
used for fitting (from `pca_aligned`) and for scoring (from `meta_aligned`)
is an original row whose label lies in both indices, and no samples are
added. -/
theorem C3_benchmark_alignment (pca_df : Frame ℚ) (meta : Frame String) :
    (∀ x, x ∈ benchCommonIndex pca_df meta ↔
      x ∈ pca_df.rows.map Prod.fst ∧ x ∈ meta.rows.map Prod.fst) ∧
    (∀ r ∈ (benchPcaAligned pca_df meta).rows,
      r ∈ pca_df.rows ∧ r.1 ∈ meta.rows.map Prod.fst) ∧
    (∀ r ∈ (benchMetaAligned pca_df meta).rows,
      r ∈ meta.rows ∧ r.1 ∈ pca_df.rows.map Prod.fst) := by
  have hcommon : ∀ x, x ∈ benchCommonIndex pca_df meta ↔
      x ∈ pca_df.rows.map Prod.fst ∧ x ∈ meta.rows.map Prod.fst := by
    intro x
    unfold benchCommonIndex commonIndex
    rw [List.mem_dedup, List.mem_filter]
    simp
  refine ⟨hcommon, ?_, ?_⟩
  · intro r hr
    obtain ⟨hrdf, hridx⟩ := mem_locRows.mp hr
    exact ⟨hrdf, ((hcommon r.1).mp hridx).2⟩
  · intro r hr
    obtain ⟨hrdf, hridx⟩ := mem_locRows.mp hr
    exact ⟨hrdf, ((hcommon r.1).mp hridx).1⟩

lemma length_filterMap_eq_countP {α β : Type} (f : α → Option β) (l : List α) :
    (l.filterMap f).length = l.countP (fun a => (f a).isSome) := by
  induction l with
  | nil => rfl
  | cons a l ih =>
    rw [List.filterMap_cons]
    cases h : f a with
    | none => simp [List.countP_cons, h, ih]
    | some b => simp [List.countP_cons, h, ih]

/-- Concrete PCA table for claim C6. -/
def C6pca : Frame ℚ := ⟨[("S1", [0]), ("S2", [1]), ("S3", [2])], ["PC1"]⟩

/-- Concrete metadata table for claim C6, one ground-truth column `T`. -/
def C6meta : Frame String := ⟨[("S1", ["A"]), ("S2", ["A"]), ("S3", ["B"])], ["T"]⟩

/-- A fit oracle whose `Spectral` fit raises (models the caught exception). -/
def C6fit : String → ℕ → List (List ℚ) → Option (List ℕ) :=
  fun m _ _ => if m = "Spectral" then none else some [0, 0, 1]

/-- A fit oracle for which every fit succeeds. -/
def C6fitW : String → ℕ → List (List ℚ) → Option (List ℕ) :=
  fun _ _ _ => some [0, 0, 1]

/-- **C6, counterexample.**  With `n_clusters_range = [2]` and a valid target,
a benchmark run in which the `Spectral` fit raises (the `try/except` swallows
the exception and appends no row) produces 2 leaderboard rows, not one row for
each `k` and each of the three methods (`3 * 1 = 3`). -/
theorem C6_bench_claim_counterexample :
    (run_clustering_benchmark C6fit (fun _ _ => 0) (fun _ _ => 0)
      C6pca C6meta [2] ["T"]).length ≠ benchMethods.length * [2].length := by
  have hvt : ¬ benchValidTargets C6pca C6meta ["T"] = [] := by decide
  have hrun : run_clustering_benchmark C6fit (fun _ _ => 0) (fun _ _ => 0)
      C6pca C6meta [2] ["T"] = List.insertionSort benchLE
        (benchAllResults C6fit (fun _ _ => 0) (fun _ _ => 0)
          C6pca C6meta [2] ["T"]) := by
    unfold run_clustering_benchmark
    rw [if_neg hvt]
  rw [hrun, (List.perm_insertionSort benchLE _).length_eq]
  decide

/-- **C6 (amended).**  For every benchmark run: if none of the requested
target columns exists in the metadata the leaderboard is empty; otherwise the
leaderboard consists of exactly one row per `k` in `n_clusters_range` and per
method among KMeans, HClust, Spectral *whose fit-and-score step does not
raise* (a raising combination is skipped by the `try/except`), each row
carrying a rounded AMI and a rounded ARI score for every valid target, and
the leaderboard is sorted in descending order by the AMI of the first valid
target. -/
theorem C6_benchmark_leaderboard
    (fit : String → ℕ → List (List ℚ) → Option (List ℕ))
    (ami ari : List String → List ℕ → ℚ) (pca_df : Frame ℚ)
    (meta : Frame String) (ks : List ℕ) (targetCols : List Label) :
    (benchValidTargets pca_df meta targetCols = [] →
      run_clustering_benchmark fit ami ari pca_df meta ks targetCols = []) ∧
    (benchValidTargets pca_df meta targetCols ≠ [] →
      (run_clustering_benchmark fit ami ari pca_df meta ks targetCols).Perm
        (benchAllResults fit ami ari pca_df meta ks targetCols) ∧
      (run_clustering_benchmark fit ami ari pca_df meta ks targetCols).length =
        (ks.map (fun k => benchMethods.countP
          (fun m => (fit m k (benchX pca_df meta)).isSome))).sum ∧
      (run_clustering_benchmark fit ami ari pca_df meta ks targetCols).Pairwise
        (fun a b => primaryAMI b ≤ primaryAMI a) ∧
      ∀ row ∈ run_clustering_benchmark fit ami ari pca_df meta ks targetCols,
        row.method ∈ benchMethods ∧ row.k ∈ ks ∧
        ∃ labels, fit row.method row.k (benchX pca_df meta) = some labels ∧
          row.scores = (benchValidTargets pca_df meta targetCols).map (fun t =>
            (t, round3 (ami (columnOf (benchMetaAligned pca_df meta) t) labels),
                round3 (ari (columnOf (benchMetaAligned pca_df meta) t) labels)))) := by
  constructor
  · intro h
    unfold run_clustering_benchmark
    rw [if_pos h]
  · intro h
    have hrun : run_clustering_benchmark fit ami ari pca_df meta ks targetCols =
        List.insertionSort benchLE
          (benchAllResults fit ami ari pca_df meta ks targetCols) := by
      unfold run_clustering_benchmark
      rw [if_neg h]
    have hperm := List.perm_insertionSort benchLE
      (benchAllResults fit ami ari pca_df meta ks targetCols)
    refine ⟨by rw [hrun]; exact hperm, ?_, ?_, ?_⟩
    · rw [hrun, hperm.length_eq]
      unfold benchAllResults
      rw [List.length_flatMap]
      congr 1
      refine List.map_congr_left fun k _ => ?_
      show (benchMethods.filterMap _).length = _
      rw [length_filterMap_eq_countP]
      refine List.countP_congr fun m _ => ?_
      rw [Option.isSome_map']
    · rw [hrun]
      exact List.sorted_insertionSort benchLE _
    · intro row hrow
      rw [hrun] at hrow
      have hrow' : row ∈ benchAllResults fit ami ari pca_df meta ks targetCols :=
        hperm.mem_iff.mp hrow
      unfold benchAllResults at hrow'
      obtain ⟨k, hk, hrowk⟩ := List.mem_flatMap.mp hrow'
      obtain ⟨m, hm, hfm⟩ := List.mem_filterMap.mp hrowk
      cases hfit : fit m k (benchX pca_df meta) with
      | none =>
        rw [hfit] at hfm
        cases hfm
      | some labels =>
        rw [hfit] at hfm
        have hrowEq := Option.some.inj hfm
        rw [← hrowEq]
        exact ⟨hm, hk, labels, hfit, rfl⟩

/-- **C6, witness for the amended theorem** (a run where every fit succeeds). -/
theorem C6_benchmark_leaderboard_witness :
    benchValidTargets C6pca C6meta ["T"] ≠ [] ∧
    ((run_clustering_benchmark C6fitW (fun _ _ => 0) (fun _ _ => 0)
        C6pca C6meta [2] ["T"]).Perm
      (benchAllResults C6fitW (fun _ _ => 0) (fun _ _ => 0)
        C6pca C6meta [2] ["T"]) ∧
     (run_clustering_benchmark C6fitW (fun _ _ => 0) (fun _ _ => 0)
        C6pca C6meta [2] ["T"]).length =
       ([2].map (fun k => benchMethods.countP
         (fun m => (C6fitW m k (benchX C6pca C6meta)).isSome))).sum ∧
     (run_clustering_benchmark C6fitW (fun _ _ => 0) (fun _ _ => 0)
        C6pca C6meta [2] ["T"]).Pairwise
       (fun a b => primaryAMI b ≤ primaryAMI a) ∧
     ∀ row ∈ run_clustering_benchmark C6fitW (fun _ _ => 0) (fun _ _ => 0)
        C6pca C6meta [2] ["T"],
       row.method ∈ benchMethods ∧ row.k ∈ [2] ∧
       ∃ labels, C6fitW row.method row.k (benchX C6pca C6meta) = some labels ∧
         row.scores = (benchValidTargets C6pca C6meta ["T"]).map (fun t =>
           (t, round3 ((fun _ _ => (0 : ℚ))
                 (columnOf (benchMetaAligned C6pca C6meta) t) labels),
               round3 ((fun _ _ => (0 : ℚ))
                 (columnOf (benchMetaAligned C6pca C6meta) t) labels)))) :=
  ⟨by decide,
   (C6_benchmark_leaderboard C6fitW (fun _ _ => 0) (fun _ _ => 0)
     C6pca C6meta [2] ["T"]).2 (by decide)⟩

/-!
## `clean_and_validate_df` / `merge_expression_tables`
(Datasets/GSE41265/sc_loader.py, lines 7-72)

Cells are `Option ℚ`: `none` is a missing value (`NaN`) or a non-numeric
entry.  `astype(float)` succeeds on an all-numeric frame and
`pd.to_numeric(errors='coerce')` turns non-numeric entries into `NaN`, so the
coercion step of the source is the identity in this model.
-/

/-- The per-label, per-column sum of `groupby(index).sum()`: `NaN`s are
skipped and (with the default `min_count = 0`) an all-`NaN` group sums to
`0.0`. -/
def sumForLabel (rows : List (Label × List (Option ℚ))) (g : Label) (j : ℕ) : ℚ :=
  ((rows.filter (fun r => r.1 == g)).map (fun r => (r.2.getD j none).getD 0)).sum

/-- `if index_name in df_clean.index: df_clean.drop(index_name, axis=0)`:
removes every row labelled with the index name. -/
def dropArtifact (rows : List (Label × List (Option ℚ))) (indexName : Label) :
    List (Label × List (Option ℚ)) :=
  if indexName ∈ rows.map Prod.fst then rows.filter (fun r => !(r.1 == indexName))
  else rows

/-- `df_clean.groupby(df_clean.index).sum()`: one row per distinct label
(keys sorted ascending, pandas' default), each cell the skipna sum over the
group. -/
def groupbySum (rows : List (Label × List (Option ℚ))) (ncols : ℕ) :
    List (Label × List (Option ℚ)) :=
  (List.insertionSort (fun a b : Label => a ≤ b) ((rows.map Prod.fst).dedup)).map
    (fun g => (g, (List.range ncols).map (fun j => some (sumForLabel rows g j))))

/-- `df_clean.isnull().values.any()`. -/
def anyNull (rows : List (Label × List (Option ℚ))) : Bool :=
  rows.any (fun r => r.2.any (fun c => c.isNone))

/-- `df_clean.fillna(0)`. -/
def fillna0 (rows : List (Label × List (Option ℚ))) :
    List (Label × List (Option ℚ)) :=
  rows.map (fun r => (r.1, r.2.map (fun c => some (c.getD 0))))

/-- `if df_clean.index.has_duplicates: df_clean.groupby(...).sum()`. -/
def dedupStage (rows : List (Label × List (Option ℚ))) (ncols : ℕ) :
    List (Label × List (Option ℚ)) :=
  if (rows.map Prod.fst).Nodup then rows else groupbySum rows ncols

/-- `if df_clean.isnull().values.any(): df_clean.fillna(0)`. -/
def fillStage (rows : List (Label × List (Option ℚ))) :
    List (Label × List (Option ℚ)) :=
  if anyNull rows then fillna0 rows else rows

/-- `clean_and_validate_df(df, index_name)`: drop the artifact row, coerce to
float (identity here, see above), collapse a duplicated index by
`groupby(...).sum()`, and fill remaining `NaN`s with `0`. -/
def clean_and_validate_df (df : Frame (Option ℚ)) (indexName : Label) :
    Frame (Option ℚ) :=
  ⟨fillStage (dedupStage (dropArtifact df.rows indexName) df.cols.length),
   df.cols⟩

/-- `pd.concat(dfs, axis=1, join='outer')`: the union of the gene labels (in
order of first appearance), each input contributing its block of columns;
a gene missing from an input yields `NaN`s in that block.  Rows are looked up
by first match (the inputs are expected to carry unique indices). -/
def concatOuter (dfs : List (Frame (Option ℚ))) : Frame (Option ℚ) :=
  ⟨((dfs.flatMap (fun d => d.rows.map Prod.fst)).dedup).map (fun g =>
      (g, dfs.flatMap (fun d =>
        match d.rows.find? (fun r => r.1 == g) with
        | some r => r.2
        | none => d.cols.map (fun _ => (none : Option ℚ))))),
   dfs.flatMap (fun d => d.cols)⟩

/-- `merge_expression_tables(dfs)`: raises `ValueError` on an empty list,
otherwise concatenates along columns and cleans the result. -/
def merge_expression_tables (dfs : List (Frame (Option ℚ))) :
    Except String (Frame (Option ℚ)) :=
  if dfs = [] then Except.error "Input list of DataFrames is empty."
  else Except.ok (clean_and_validate_df (concatOuter dfs) "GENE")

/-- The invariant claimed for cleaned frames: unique index, no missing (hence
all-numeric) values, and no artifact row labelled with the index name. -/
def CleanInvariant (f : Frame (Option ℚ)) (indexName : Label) : Prop :=
  (f.rows.map Prod.fst).Nodup ∧
  (∀ r ∈ f.rows, ∀ c ∈ r.2, c.isSome) ∧
  indexName ∉ f.rows.map Prod.fst

lemma groupbySum_labels (rows : List (Label × List (Option ℚ))) (n : ℕ) :
    (groupbySum rows n).map Prod.fst =
      List.insertionSort (fun a b : Label => a ≤ b) ((rows.map Prod.fst).dedup) := by
  unfold groupbySum
  rw [List.map_map]
  exact List.map_id _

lemma fillna0_labels (rows : List (Label × List (Option ℚ))) :
    (fillna0 rows).map Prod.fst = rows.map Prod.fst := by
  unfold fillna0
  rw [List.map_map]
  rfl

lemma dropArtifact_not_mem (rows : List (Label × List (Option ℚ)))
    (indexName : Label) :
    indexName ∉ (dropArtifact rows indexName).map Prod.fst := by
  unfold dropArtifact
  by_cases h : indexName ∈ rows.map Prod.fst
  · rw [if_pos h]
    intro hmem
    obtain ⟨r, hr, hr1⟩ := List.mem_map.mp hmem
    have hkeep := (List.mem_filter.mp hr).2
    rw [hr1] at hkeep
    simp at hkeep
  · rw [if_neg h]
    exact h

lemma anyNull_groupbySum (rows : List (Label × List (Option ℚ))) (n : ℕ) :
    anyNull (groupbySum rows n) = false := by
  unfold anyNull groupbySum
  rw [List.any_eq_false]
  intro r hr
  obtain ⟨g, _, hg⟩ := List.mem_map.mp hr
  rw [Bool.not_eq_true, List.any_eq_false]
  intro c hc
  have hc' : c ∈ (List.range n).map (fun j => some (sumForLabel rows g j)) := by
    rw [← hg] at hc
    exact hc
  obtain ⟨j, _, hj⟩ := List.mem_map.mp hc'
  rw [← hj]
  simp

lemma getD_map_range {α : Type} (f : ℕ → α) {n j : ℕ} (h : j < n) (d : α) :
    ((List.range n).map f).getD j d = f j := by
  rw [List.getD_eq_getElem?_getD, List.getElem?_map, List.getElem?_range h]
  rfl

lemma getD_map_of_lt {α β : Type} (f : α → β) (l : List α) {j : ℕ}
    (h : j < l.length) (d : β) (d' : α) :
    (l.map f).getD j d = f (l.getD j d') := by
  rw [List.getD_eq_getElem?_getD, List.getElem?_map,
    List.getElem?_eq_getElem h, List.getD_eq_getElem?_getD,
    List.getElem?_eq_getElem h]
  rfl

lemma fillStage_labels (rows : List (Label × List (Option ℚ))) :
    (fillStage rows).map Prod.fst = rows.map Prod.fst := by
  unfold fillStage
  by_cases h : anyNull rows
  · rw [if_pos h, fillna0_labels]
  · rw [if_neg h]

lemma dedupStage_labels_perm (rows : List (Label × List (Option ℚ))) (n : ℕ) :
    ((dedupStage rows n).map Prod.fst).Perm ((rows.map Prod.fst).dedup) := by
  unfold dedupStage
  by_cases h : (rows.map Prod.fst).Nodup
  · rw [if_pos h, List.dedup_eq_self.mpr h]
  · rw [if_neg h, groupbySum_labels]
    exact List.perm_insertionSort _ _

lemma clean_invariant_holds (df : Frame (Option ℚ)) (indexName : Label) :
    CleanInvariant (clean_and_validate_df df indexName) indexName := by
  have hrows : (clean_and_validate_df df indexName).rows =
      fillStage (dedupStage (dropArtifact df.rows indexName) df.cols.length) := rfl
  refine ⟨?_, ?_, ?_⟩
  · rw [hrows, fillStage_labels]
    exact ((dedupStage_labels_perm _ _).nodup_iff).mpr (List.nodup_dedup _)
  · rw [hrows]
    unfold fillStage
    by_cases h : anyNull (dedupStage (dropArtifact df.rows indexName) df.cols.length)
    · rw [if_pos h]
      intro r hr c hc
      obtain ⟨r0, _, hr0⟩ := List.mem_map.mp hr
      have hc' : c ∈ r0.2.map (fun c => some (c.getD 0)) := by
        rw [← hr0] at hc
        exact hc
      obtain ⟨c0, _, hc0⟩ := List.mem_map.mp hc'
      rw [← hc0]
      rfl
    · rw [if_neg h]
      intro r hr c hc
      have hfalse : anyNull (dedupStage (dropArtifact df.rows indexName)
          df.cols.length) = false := Bool.eq_false_iff.mpr h
      rw [anyNull, List.any_eq_false] at hfalse
      have hrow := hfalse r hr
      rw [Bool.not_eq_true, List.any_eq_false] at hrow
      have hcn := hrow c hc
      cases c with
      | none => simp at hcn
      | some x => rfl
  · rw [hrows, fillStage_labels]
    intro hmem
    have hdd : indexName ∈ ((dropArtifact df.rows indexName).map Prod.fst).dedup :=
      ((dedupStage_labels_perm _ _).mem_iff).mp hmem
    rw [List.mem_dedup] at hdd
    exact dropArtifact_not_mem df.rows indexName hdd

lemma clean_labels_perm (df : Frame (Option ℚ)) (indexName : Label) :
    ((clean_and_validate_df df indexName).rows.map Prod.fst).Perm
      (((dropArtifact df.rows indexName).map Prod.fst).dedup) := by
  have hrows : (clean_and_validate_df df indexName).rows =
      fillStage (dedupStage (dropArtifact df.rows indexName) df.cols.length) := rfl
  rw [hrows, fillStage_labels]
  exact dedupStage_labels_perm _ _

lemma clean_values (df : Frame (Option ℚ)) (indexName : Label) :
    ∀ r ∈ (clean_and_validate_df df indexName).rows, ∀ j, j < r.2.length →
      r.2.getD j none =
        some (sumForLabel (dropArtifact df.rows indexName) r.1 j) := by
  intro r hr j hj
  have hrows : (clean_and_validate_df df indexName).rows =
      fillStage (dedupStage (dropArtifact df.rows indexName) df.cols.length) := rfl
  rw [hrows] at hr
  by_cases hnd : ((dropArtifact df.rows indexName).map Prod.fst).Nodup
  · have hd : dedupStage (dropArtifact df.rows indexName) df.cols.length =
        dropArtifact df.rows indexName := by
      unfold dedupStage
      rw [if_pos hnd]
    rw [hd] at hr
    unfold fillStage at hr
    by_cases hnull : anyNull (dropArtifact df.rows indexName)
    · rw [if_pos hnull] at hr
      obtain ⟨r0, hr0mem, hr0⟩ := List.mem_map.mp hr
      have hr1 : r.1 = r0.1 := by rw [← hr0]
      have hr2 : r.2 = r0.2.map (fun c => some (c.getD 0)) := by rw [← hr0]
      have hjlen : j < r0.2.length := by
        rw [hr2, List.length_map] at hj
        exact hj
      rw [hr2, getD_map_of_lt _ _ hjlen none none, hr1]
      congr 1
      unfold sumForLabel
      rw [filter_key_eq_singleton hnd hr0mem]
      simp
    · rw [if_neg hnull] at hr
      have hfalse : anyNull (dropArtifact df.rows indexName) = false :=
        Bool.eq_false_iff.mpr hnull
      rw [anyNull, List.any_eq_false] at hfalse
      have hrow := hfalse r hr
      rw [Bool.not_eq_true, List.any_eq_false] at hrow
      have hcell : r.2.getD j none = r.2[j] := by
        rw [List.getD_eq_getElem?_getD, List.getElem?_eq_getElem hj]
        rfl
      have hcn := hrow _ (List.getElem_mem hj)
      unfold sumForLabel
      rw [filter_key_eq_singleton hnd hr]
      rw [hcell]
      cases hx : r.2[j] with
      | none =>
        rw [hx] at hcn
        simp at hcn
      | some x =>
        simp only [List.map_cons, List.map_nil, List.sum_cons, List.sum_nil,
          add_zero]
        rw [hcell, hx]
        rfl
  · have hd : dedupStage (dropArtifact df.rows indexName) df.cols.length =
        groupbySum (dropArtifact df.rows indexName) df.cols.length := by
      unfold dedupStage
      rw [if_neg hnd]
    rw [hd] at hr
    have hfill : fillStage (groupbySum (dropArtifact df.rows indexName)
        df.cols.length) = groupbySum (dropArtifact df.rows indexName)
        df.cols.length := by
      unfold fillStage
      rw [anyNull_groupbySum]
      simp
    rw [hfill] at hr
    unfold groupbySum at hr
    obtain ⟨g, _, hg⟩ := List.mem_map.mp hr
    have hr1 : r.1 = g := by rw [← hg]
    have hr2 : r.2 = (List.range df.cols.length).map
        (fun j => some (sumForLabel (dropArtifact df.rows indexName) g j)) := by
      rw [← hg]
    have hjn : j < df.cols.length := by
      rw [hr2, List.length_map, List.length_range] at hj
      exact hj
    rw [hr2, getD_map_range _ hjn, hr1]

/-- Concrete input for claim C10: an artifact row, a duplicated gene and a
missing value. -/
def C10wit : Frame (Option ℚ) :=
  ⟨[("GENE", [some 1]), ("A", [some 1]), ("A", [none]), ("B", [none])], ["S1"]⟩

/-- **C10.**  For every input DataFrame, `clean_and_validate_df` returns a
frame with a unique index, no missing (hence all-numeric) values and no
artifact row labelled with the index name; its index is exactly the set of
non-artifact input labels, each output cell being the skipna sum of the
duplicate input rows carrying its label (non-numeric entries having been
coerced to `NaN` and ultimately filled with `0`); and `merge_expression_tables`
preserves this invariant for every merged result. -/
theorem C10_clean_merge_invariants (indexName : Label) :
    (∀ df : Frame (Option ℚ),
      CleanInvariant (clean_and_validate_df df indexName) indexName) ∧
    (∀ df : Frame (Option ℚ),
      ((clean_and_validate_df df indexName).rows.map Prod.fst).Perm
        (((dropArtifact df.rows indexName).map Prod.fst).dedup)) ∧
    (∀ df : Frame (Option ℚ), ∀ r ∈ (clean_and_validate_df df indexName).rows,
      ∀ j, j < r.2.length →
        r.2.getD j none =
          some (sumForLabel (dropArtifact df.rows indexName) r.1 j)) ∧
    (∀ dfs : List (Frame (Option ℚ)), dfs ≠ [] →
      ∃ out, merge_expression_tables dfs = Except.ok out ∧
        CleanInvariant out "GENE") := by
  refine ⟨fun df => clean_invariant_holds df indexName,
          fun df => clean_labels_perm df indexName,
          fun df => clean_values df indexName,
          fun dfs h => ⟨clean_and_validate_df (concatOuter dfs) "GENE", ?_,
            clean_invariant_holds _ _⟩⟩
  unfold merge_expression_tables
  rw [if_neg h]

/-- **C10, witness.** -/
theorem C10_clean_merge_invariants_witness :
    ([C10wit] ≠ []) ∧
    CleanInvariant (clean_and_validate_df C10wit "GENE") "GENE" ∧
    (∃ out, merge_expression_tables [C10wit] = Except.ok out ∧
      CleanInvariant out "GENE") :=
  ⟨by decide, (C10_clean_merge_invariants "GENE").1 C10wit,
   (C10_clean_merge_invariants "GENE").2.2.2 [C10wit] (by decide)⟩

/-!
## Dataset loaders and `prepare_sample_metadata` (claim C4)

The loaders' file-system scans, CSV reads and SRA merges are external; the
oracles below stand for them.  What is embedded is each function's control
flow: the guards that print-and-return an empty result versus the guards that
raise.
-/

/-- Per-file duplicate handling of `load_gse42268_data`:
`df_temp.groupby('gene_symbol')['fpkm'].sum()`, applied only when the file
contains a duplicated gene symbol (keys sorted ascending, pandas default). -/
def fileSeries (pairs : List (String × ℚ)) : List (String × ℚ) :=
  if (pairs.map Prod.fst).Nodup then pairs
  else (List.insertionSort (fun a b : String => a ≤ b)
      ((pairs.map Prod.fst).dedup)).map
    (fun g => (g, ((pairs.filter (fun q => q.1 == g)).map Prod.snd).sum))

/-- `pd.DataFrame(expression_dict).fillna(0)` of `load_gse42268_data`:
genes-by-samples matrix from one series per sample; the index is the sorted
union of the gene labels and a gene absent from a sample contributes `0`. -/
def buildExprMatrix (loaded : List (Label × List (String × ℚ))) : Frame ℚ :=
  ⟨(List.insertionSort (fun a b : String => a ≤ b)
      ((loaded.flatMap (fun p => p.2.map Prod.fst)).dedup)).map (fun g =>
      (g, loaded.map (fun p =>
        match p.2.find? (fun q => q.1 == g) with
        | some q => q.2
        | none => 0))),
   loaded.map Prod.fst⟩

/-- `load_gse42268_data(data_folder, metadata_path)`
(Datasets/GSE42268/sc_loader.py): the `glob` scan, per-file CSV parse (with
its per-file `try/except`, modelled by `parseFile` returning `none` on a
caught error) and the SRA `pd.read_csv`/`pd.merge` tail (`mergeSra`) are
external.  Embedded: the `ValueError` raised when no `.txt` files are found,
and the pivot into a genes-by-samples matrix. -/
def load_gse42268_data (files : List String)
    (parseFile : String → Option (Label × String × List (String × ℚ)))
    (mergeSra : List (Label × String) → Frame String) :
    Except String (Frame ℚ × Frame String) :=
  if files = [] then Except.error "No .txt files found. Check your DATA_PATH."
  else
    let loaded := files.filterMap parseFile
    Except.ok
      (buildExprMatrix (loaded.map (fun p => (p.1, fileSeries p.2.2))),
       mergeSra (loaded.map (fun p => (p.1, p.2.1))))

/-- `_load_counts` of `load_gse74596_data` after the external directory scan
and reads: `loaded` holds one `(GSM id, gene/count series)` per successfully
parsed file.  Empty input yields an empty frame; otherwise the series are
outer-joined and `NaN`s filled with `0` (per-file duplicate genes were
dropped keeping the first, which the first-match lookup reproduces). -/
def load_counts (loaded : List (Label × List (String × ℚ))) : Frame ℚ :=
  if loaded = [] then Frame.empty
  else
    ⟨((loaded.flatMap (fun p => p.2.map Prod.fst)).dedup).map (fun g =>
        (g, loaded.map (fun p =>
          match p.2.find? (fun q => q.1 == g) with
          | some q => q.2
          | none => 0))),
     loaded.map Prod.fst⟩

/-- `raw_counts[common]`: column selection by label list. -/
def selectColsByLabels (df : Frame ℚ) (cs : List Label) : Frame ℚ :=
  ⟨df.rows.map (fun r =>
      (r.1, cs.map (fun c => r.2.getD (List.indexOf c df.cols) 0))),
   cs⟩

/-- `load_gse74596_data(data_dir, sra_path)`
(Datasets/GSE74596/sc_loader.py, lines 96-126): raises `ValueError` when no
count data was loaded, returns the unaligned pair (to debug) when the file
GSM ids and the SRA GSM ids do not intersect, and otherwise keeps the cells
matched in both. -/
def load_gse74596_data (loaded : List (Label × List (String × ℚ)))
    (meta : Frame String) : Except String (Frame ℚ × Frame String) :=
  let raw := load_counts loaded
  if raw.isEmpty then Except.error "No count data loaded."
  else
    let common := (raw.cols.filter
      (fun c => decide (c ∈ meta.rows.map Prod.fst))).dedup
    if common.length = 0 then Except.ok (raw, meta)
    else Except.ok (selectColsByLabels raw common, locRows meta common)

/-- The `elif qc_metrics_df ... else` tail of the master-index choice in
`prepare_sample_metadata`. -/
def prepQcBranch (reindexJoin : Frame String → List Label → Option (Frame ℚ) →
      Frame String) (conditions : Frame String) (qc : Option (Frame ℚ)) :
    Frame String :=
  match qc with
  | some q =>
    if q.isEmpty = false then reindexJoin conditions (q.rows.map Prod.fst) qc
    else conditions
  | none => conditions

/-- `prepare_sample_metadata(sra_run_table_df, qc_metrics_df, pca_df)`
(Datasets/GSE41265/sc_metadata.py, lines 59-132).  The pandas-library body —
the `groupby('GSM_ID').first()` consolidation plus `_parse_condition_row`
(`conditionsOf`) and the final `reindex`/`fillna`/`join` against the chosen
index (`reindexJoin`) — is abstracted; embedded are the empty-input guard and
the choice of the master index (PCA first, then QC, else all SRA samples). -/
def prepare_sample_metadata
    (conditionsOf : Frame String → Frame String)
    (reindexJoin : Frame String → List Label → Option (Frame ℚ) → Frame String)
    (sra : Frame String) (qc pca : Option (Frame ℚ)) : Frame String :=
  if sra.isEmpty then Frame.empty
  else
    let conditions := conditionsOf sra
    match pca with
    | some p =>
      if p.isEmpty = false then reindexJoin conditions (p.rows.map Prod.fst) qc
      else prepQcBranch reindexJoin conditions qc
    | none => prepQcBranch reindexJoin conditions qc

/-- **C4, counterexample.**  `merge_expression_tables` does not return an
empty DataFrame on an empty input list: it raises
`ValueError("Input list of DataFrames is empty.")`. -/
theorem C4_no_raise_counterexample :
    merge_expression_tables [] =
      Except.error "Input list of DataFrames is empty." := rfl

/-- **C4 (amended).**  The shared processing and clustering operations handle
failure by printing a message and returning an empty result:
`filter_tpm_matrix` (on empty input and when no sample passes QC),
`select_highly_variable_genes`, `scale_data`, `run_pca_pipeline`,
`run_clustering_benchmark` (when no requested target column exists) and
`prepare_sample_metadata` all return empty results without raising.  The
dataset loaders are the exception: `merge_expression_tables` raises
`ValueError` on an empty input list, `load_gse42268_data` when no `.txt`
files are found, and `load_gse74596_data` when no count data is loaded. -/
theorem C4_failure_handling :
    (∀ (df : Frame ℚ) minTpm mgs msg, df.isEmpty = true →
      filter_tpm_matrix df minTpm mgs msg = (Frame.empty, Frame.empty)) ∧
    (∀ (df : Frame ℚ) minTpm mgs msg,
      (selectCols df (keptSamplePos df minTpm mgs)).isEmpty = true →
      filter_tpm_matrix df minTpm mgs msg = (Frame.empty, Frame.empty)) ∧
    (∀ (df : Frame ℚ) nTop, df.isEmpty = true →
      select_highly_variable_genes df nTop = (Frame.empty, [])) ∧
    (∀ sigma (df : Frame ℚ), df.isEmpty = true →
      scale_data sigma df = Frame.empty) ∧
    (∀ coords evr (df : Frame ℚ) n, df.isEmpty = true →
      run_pca_pipeline coords evr df n = (Frame.empty, [])) ∧
    (∀ fit ami ari (pca : Frame ℚ) (meta : Frame String) ks
        (targets : List Label), benchValidTargets pca meta targets = [] →
      run_clustering_benchmark fit ami ari pca meta ks targets = []) ∧
    (∀ conditionsOf reindexJoin (sra : Frame String) qc pca,
      sra.isEmpty = true →
      prepare_sample_metadata conditionsOf reindexJoin sra qc pca =
        Frame.empty) ∧
    merge_expression_tables [] =
      Except.error "Input list of DataFrames is empty." ∧
    (∀ parseFile mergeSra, load_gse42268_data [] parseFile mergeSra =
      Except.error "No .txt files found. Check your DATA_PATH.") ∧
    (∀ meta, load_gse74596_data [] meta =
      Except.error "No count data loaded.") := by
  refine ⟨?_, ?_, ?_, ?_, ?_, ?_, ?_, rfl, fun _ _ => rfl, fun _ => rfl⟩
  · intro df t mgs msg h
    unfold filter_tpm_matrix
    rw [h]
    simp
  · intro df t mgs msg h
    unfold filter_tpm_matrix
    by_cases h0 : df.isEmpty
    · rw [h0]
      simp
    · rw [Bool.not_eq_true] at h0
      rw [h0]
      simp only [Bool.false_eq_true, if_false]
      rw [h]
      simp
  · intro df nTop h
    unfold select_highly_variable_genes
    rw [h]
    simp
  · intro sigma df h
    unfold scale_data
    rw [h]
    simp
  · intro coords evr df n h
    unfold run_pca_pipeline
    rw [h]
    simp
  · intro fit ami ari pca meta ks targets h
    unfold run_clustering_benchmark
    rw [if_pos h]
  · intro conditionsOf reindexJoin sra qc pca h
    unfold prepare_sample_metadata
    rw [h]
    simp

/-- **C4, witness for the amended theorem.** -/
theorem C4_failure_handling_witness :
    (Frame.empty : Frame ℚ).isEmpty = true ∧
    benchValidTargets Frame.empty Frame.empty [] = [] ∧
    filter_tpm_matrix Frame.empty 1 500 3 = (Frame.empty, Frame.empty) ∧
    select_highly_variable_genes Frame.empty 2000 = (Frame.empty, []) ∧
    scale_data (fun _ => 1) Frame.empty = Frame.empty ∧
    run_pca_pipeline (fun _ _ => 0) (fun _ => 0) Frame.empty 50 =
      (Frame.empty, []) ∧
    run_clustering_benchmark (fun _ _ _ => none) (fun _ _ => 0) (fun _ _ => 0)
      Frame.empty Frame.empty [] [] = [] ∧
    prepare_sample_metadata (fun _ => Frame.empty) (fun c _ _ => c)
      Frame.empty none none = Frame.empty ∧
    load_gse42268_data [] (fun _ => none) (fun _ => Frame.empty) =
      Except.error "No .txt files found. Check your DATA_PATH." ∧
    load_gse74596_data [] Frame.empty =
      Except.error "No count data loaded." :=
  ⟨rfl, rfl,
   C4_failure_handling.1 Frame.empty 1 500 3 rfl,
   C4_failure_handling.2.2.1 Frame.empty 2000 rfl,
   C4_failure_handling.2.2.2.1 (fun _ => 1) Frame.empty rfl,
   C4_failure_handling.2.2.2.2.1 (fun _ _ => 0) (fun _ => 0) Frame.empty 50 rfl,
   C4_failure_handling.2.2.2.2.2.1 (fun _ _ _ => none) (fun _ _ => 0)
     (fun _ _ => 0) Frame.empty Frame.empty [] [] rfl,
   C4_failure_handling.2.2.2.2.2.2.1 (fun _ => Frame.empty) (fun c _ _ => c)
     Frame.empty none none rfl,
   C4_failure_handling.2.2.2.2.2.2.2.2.1 (fun _ => none) (fun _ => Frame.empty),
   C4_failure_handling.2.2.2.2.2.2.2.2.2 Frame.empty⟩

end SC



